import Mathlib

/-!
Verification of the Janggi (Korean chess) rules engine in JanggiGame.py.

The Python program is shallowly embedded: locations travel externally as
algebraic-notation strings (modelled as lists of characters) and internally
as zero-based (row, column) pairs; the 9x10 board is a list of ten rows of
nine optional piece cells, exactly as the Python list-of-lists; methods that
can raise (KeyError / IndexError / AttributeError on None) are modelled as
Option-returning functions, with none standing for the raised exception.

Python's object aliasing between Board cells and Player "carts" maintains the
documented invariant that a player's cart holds exactly the player's pieces
on the board; the embedding therefore derives each cart from the grid by a
row-major scan, which is also the order in which initialize_board fills the
carts.
-/

namespace Janggi

/-- The two sides; blue moves first. -/
inductive Color where
  | blue
  | red
deriving DecidableEq

/-- The opposite side (JanggiGame.toggle_players picks the other player). -/
def Color.other : Color → Color
  | .blue => .red
  | .red => .blue

/-- The seven piece kinds, named by their two-letter abbreviations from the
source ("GN" General, "GD" Guard, "EL" Elephant, "HO" Horse, "CH" Chariot,
"CA" Cannon, "SD" Soldier). -/
inductive Kind where
  | GN
  | GD
  | EL
  | HO
  | CH
  | CA
  | SD
deriving DecidableEq

/-- A piece: its kind (Piece._name), owner (Piece._owner) and recorded
location (Piece._location, kept in decoded row/column form). -/
structure Piece where
  name : Kind
  owner : Color
  loc : Int × Int
deriving DecidableEq

/-- Internal board coordinates: (row, column), row 0-9 top (red) to bottom
(blue), column 0-8 left to right, as produced by decode_location. -/
abbrev Pos := Int × Int

/- ## Location codec (Board.decode_location / Board.encode_location) -/

/-- The column_key dictionary of decode_location: letters a-i to 0-8;
a missing key is a Python KeyError, modelled as none. -/
def columnKey (ch : Char) : Option Nat :=
  if ch = 'a' then some 0
  else if ch = 'b' then some 1
  else if ch = 'c' then some 2
  else if ch = 'd' then some 3
  else if ch = 'e' then some 4
  else if ch = 'f' then some 5
  else if ch = 'g' then some 6
  else if ch = 'h' then some 7
  else if ch = 'i' then some 8
  else none

/-- The row_key dictionary of decode_location looked up at a single character
location[1]: only the keys "1".."9" can match a one-character string. -/
def rowKeyChar (ch : Char) : Option Nat :=
  if ch = '1' then some 0
  else if ch = '2' then some 1
  else if ch = '3' then some 2
  else if ch = '4' then some 3
  else if ch = '5' then some 4
  else if ch = '6' then some 5
  else if ch = '7' then some 6
  else if ch = '8' then some 7
  else if ch = '9' then some 8
  else none

/-- The row_key dictionary looked up at the two-character slice location[1:]
of a length-3 string: only the key "10" can match. -/
def rowKeySlice (s : List Char) : Option Nat :=
  if s = ['1', '0'] then some 9 else none

/-- Board.decode_location: algebraic text to (row, column).
Faithful to the Python control flow: location[0] (IndexError on the empty
string), column_key lookup (KeyError), then row_key on location[1:] when the
length is exactly 3, and on the single character location[1] otherwise
(IndexError when the length is 1; characters beyond index 1 are ignored for
lengths other than 3). -/
def decode (loc : List Char) : Option (Nat × Nat) :=
  match loc.get? 0 with
  | none => none
  | some ch0 =>
    match columnKey ch0 with
    | none => none
    | some column =>
      if loc.length = 3 then
        match rowKeySlice (loc.drop 1) with
        | none => none
        | some row => some (row, column)
      else
        match loc.get? 1 with
        | none => none
        | some ch1 =>
          match rowKeyChar ch1 with
          | none => none
          | some row => some (row, column)

/-- The column_key dictionary of encode_location: 0-8 to letters a-i. -/
def columnKeyInv (c : Nat) : Option Char :=
  if c = 0 then some 'a'
  else if c = 1 then some 'b'
  else if c = 2 then some 'c'
  else if c = 3 then some 'd'
  else if c = 4 then some 'e'
  else if c = 5 then some 'f'
  else if c = 6 then some 'g'
  else if c = 7 then some 'h'
  else if c = 8 then some 'i'
  else none

/-- The row_key dictionary of encode_location: 0-9 to the strings "1".."10". -/
def rowKeyInv (r : Nat) : Option (List Char) :=
  if r = 0 then some ['1']
  else if r = 1 then some ['2']
  else if r = 2 then some ['3']
  else if r = 3 then some ['4']
  else if r = 4 then some ['5']
  else if r = 5 then some ['6']
  else if r = 6 then some ['7']
  else if r = 7 then some ['8']
  else if r = 8 then some ['9']
  else if r = 9 then some ['1', '0']
  else none

/-- Board.encode_location: (row, column) to algebraic text, column letter
first then row string (location = column + row in the source). A key outside
the tables raises KeyError, modelled as none. -/
def encode (row column : Nat) : Option (List Char) :=
  match columnKeyInv column with
  | none => none
  | some colCh =>
    match rowKeyInv row with
    | none => none
    | some rowS => some (colCh :: rowS)

/- ## The board grid -/

/-- The game board: a list of row lists of optional pieces
(Board._board, a 10-row by 9-column list of lists). -/
abbrev Grid := List (List (Option Piece))

/-- A position lies on the 9x10 board (rows 0-9, columns 0-8); every string
accepted by decode_location denotes such a position. -/
def inRange (p : Pos) : Prop :=
  0 ≤ p.1 ∧ p.1 < 10 ∧ 0 ≤ p.2 ∧ p.2 < 9

instance (p : Pos) : Decidable (inRange p) := by
  unfold inRange; infer_instance

/-- Board.get_occupant after decoding: the cell self._board[row][column].
Python only ever indexes with decoded (hence in-range) coordinates; out of
range positions are mapped to none. -/
def getOccupant (g : Grid) (p : Pos) : Option Piece :=
  if inRange p then
    match g.get? p.1.toNat with
    | none => none
    | some row =>
      match row.get? p.2.toNat with
      | none => none
      | some cell => cell
  else none

/-- Assignment self._board[row][column] = v. Python only ever assigns at
decoded coordinates; positions whose row does not exist leave the grid
unchanged. -/
def setCell (g : Grid) (p : Pos) (v : Option Piece) : Grid :=
  match g.get? p.1.toNat with
  | none => g
  | some row => g.set p.1.toNat (row.set p.2.toNat v)

/-- A well-formed grid: exactly 10 rows of 9 cells, the shape built by
initialize_board and preserved by every cell assignment. -/
def gridWF (g : Grid) : Prop :=
  g.length = 10 ∧ ∀ row ∈ g, row.length = 9

instance (g : Grid) : Decidable (gridWF g) := by
  unfold gridWF; infer_instance

/- ## Palace squares, in decoded coordinates

The source keeps these as string lists; decoding the literal strings with
decode_location gives the coordinate lists below (for example "d8" decodes
to (7, 3) and "e2" to (1, 4)). -/

/-- Piece._palace: the 18 squares of both palaces, in source order
d8 d9 d10 e8 e9 e10 f8 f9 f10 d1 d2 d3 e1 e2 e3 f1 f2 f3. -/
def palaceAll : List Pos :=
  [(7, 3), (8, 3), (9, 3), (7, 4), (8, 4), (9, 4), (7, 5), (8, 5), (9, 5),
   (0, 3), (1, 3), (2, 3), (0, 4), (1, 4), (2, 4), (0, 5), (1, 5), (2, 5)]

/-- palace_corners = d1 f1 d3 f3 d8 f8 d10 f10. -/
def palaceCorners : List Pos :=
  [(0, 3), (0, 5), (2, 3), (2, 5), (7, 3), (7, 5), (9, 3), (9, 5)]

/-- palace_centers = e2 e9. -/
def palaceCenters : List Pos := [(1, 4), (8, 4)]

/-- blue_palace_corners = d8 f8 d10 f10. -/
def bluePalaceCorners : List Pos := [(7, 3), (7, 5), (9, 3), (9, 5)]

/-- red_palace_corners = d1 f1 d3 f3. -/
def redPalaceCorners : List Pos := [(0, 3), (0, 5), (2, 3), (2, 5)]

/-- blue_palace_center = e9. -/
def bluePalaceCenter : Pos := (8, 4)

/-- red_palace_center = e2. -/
def redPalaceCenter : Pos := (1, 4)

/-- The palace list used by Board.is_in_checkmate for the General escape
scan: the defender's own palace, in source order (d8 d9 d10 e8 e9 e10 f8 f9
f10 for blue, d1 d2 d3 e1 e2 e3 f1 f2 f3 for red). -/
def palaceOf : Color → List Pos
  | .blue => [(7, 3), (8, 3), (9, 3), (7, 4), (8, 4), (9, 4), (7, 5), (8, 5), (9, 5)]
  | .red => [(0, 3), (1, 3), (2, 3), (0, 4), (1, 4), (2, 4), (0, 5), (1, 5), (2, 5)]

/-- Whether the piece at dst (if any) belongs to the given owner: the
"friendly piece on the destination" test opening every is_legal method. -/
def friendlyAt (g : Grid) (owner : Color) (dst : Pos) : Bool :=
  match getOccupant g dst with
  | none => false
  | some q => q.owner = owner

/- ## Piece movement rules -/

/-- General.is_legal. The destination must not hold a friendly piece, must
lie in the (combined) palace list, the step is at most one per axis, and a
diagonal step must run between a palace corner and a palace center. -/
def generalIsLegal (g : Grid) (owner : Color) (src dst : Pos) : Bool :=
  if friendlyAt g owner dst then false
  else if ¬ (dst ∈ palaceAll) then false
  else if (dst.1 - src.1).natAbs > 1 ∨ (dst.2 - src.2).natAbs > 1 then false
  else if (dst.1 - src.1).natAbs = 1 ∧ (dst.2 - src.2).natAbs = 1 then
    if src ∈ palaceCorners then dst ∈ palaceCenters
    else if src ∈ palaceCenters then dst ∈ palaceCorners
    else false
  else true

/-- Guard.is_legal: textually the same rule as the General's. -/
def guardIsLegal (g : Grid) (owner : Color) (src dst : Pos) : Bool :=
  if friendlyAt g owner dst then false
  else if ¬ (dst ∈ palaceAll) then false
  else if (dst.1 - src.1).natAbs > 1 ∨ (dst.2 - src.2).natAbs > 1 then false
  else if (dst.1 - src.1).natAbs = 1 ∧ (dst.2 - src.2).natAbs = 1 then
    if src ∈ palaceCorners then dst ∈ palaceCenters
    else if src ∈ palaceCenters then dst ∈ palaceCorners
    else false
  else true

/-- Elephant.move_path: one orthogonal step then one diagonal step outward,
two intermediate squares, with the four direction cases of the source laid
out in the same order. -/
def elephantMovePath (src dst : Pos) : List Pos :=
  let fr := src.1; let fc := src.2; let tr := dst.1; let tc := dst.2
  (if tr - fr = -3 then
      [(fr - 1, fc)] ++
        (if tc - fc = 2 then [(fr - 2, fc + 1)] else [(fr - 2, fc - 1)])
    else []) ++
  (if tr - fr = 3 then
      [(fr + 1, fc)] ++
        (if tc - fc = 2 then [(fr + 2, fc + 1)] else [(fr + 2, fc - 1)])
    else []) ++
  (if tc - fc = 3 then
      [(fr, fc + 1)] ++
        (if tr - fr = 2 then [(fr + 1, fc + 2)] else [(fr - 1, fc + 2)])
    else []) ++
  (if tc - fc = -3 then
      [(fr, fc - 1)] ++
        (if tr - fr = 2 then [(fr + 1, fc - 2)] else [(fr - 1, fc - 2)])
    else [])

/-- Elephant.is_legal: a 3-by-2 (or 2-by-3) leap whose two intermediate
squares are both empty; the destination must not hold a friendly piece. -/
def elephantIsLegal (g : Grid) (owner : Color) (src dst : Pos) : Bool :=
  if friendlyAt g owner dst then false
  else if (dst.1 - src.1).natAbs = 3 ∧ (dst.2 - src.2).natAbs = 2 then
    (elephantMovePath src dst).all (fun sq => (getOccupant g sq).isNone)
  else if (dst.1 - src.1).natAbs = 2 ∧ (dst.2 - src.2).natAbs = 3 then
    (elephantMovePath src dst).all (fun sq => (getOccupant g sq).isNone)
  else false

/-- Horse.move_path: the single orthogonal intermediate square of a knight
move, with the four direction cases in source order. -/
def horseMovePath (src dst : Pos) : List Pos :=
  let fr := src.1; let fc := src.2; let tr := dst.1; let tc := dst.2
  (if tr - fr = -2 then [(fr - 1, fc)] else []) ++
  (if tr - fr = 2 then [(fr + 1, fc)] else []) ++
  (if tc - fc = 2 then [(fr, fc + 1)] else []) ++
  (if tc - fc = -2 then [(fr, fc - 1)] else [])

/-- Horse.is_legal: a 2-by-1 (or 1-by-2) leap whose intermediate square is
empty; the destination must not hold a friendly piece. -/
def horseIsLegal (g : Grid) (owner : Color) (src dst : Pos) : Bool :=
  if friendlyAt g owner dst then false
  else if (dst.1 - src.1).natAbs = 2 ∧ (dst.2 - src.2).natAbs = 1 then
    (horseMovePath src dst).all (fun sq => (getOccupant g sq).isNone)
  else if (dst.1 - src.1).natAbs = 1 ∧ (dst.2 - src.2).natAbs = 2 then
    (horseMovePath src dst).all (fun sq => (getOccupant g sq).isNone)
  else false

/-- The ascending or descending run of squares strictly between two column
indices on one row, in traversal order (the two range loops of the
horizontal case of Chariot.move_path). -/
def betweenCols (row fromC toC : Int) : List Pos :=
  if toC > fromC then
    (List.range (toC - fromC - 1).toNat).map (fun i => (row, fromC + 1 + i))
  else
    (List.range (fromC - toC - 1).toNat).map (fun i => (row, fromC - 1 - i))

/-- The run of squares strictly between two row indices on one column, in
traversal order (the vertical case of Chariot.move_path). -/
def betweenRows (col fromR toR : Int) : List Pos :=
  if toR > fromR then
    (List.range (toR - fromR - 1).toNat).map (fun i => (fromR + 1 + i, col))
  else
    (List.range (fromR - toR - 1).toNat).map (fun i => (fromR - 1 - i, col))

/-- Chariot.move_path: palace corner to corner crosses only the palace
center; corner to center (either way) has no intermediate square; otherwise
the horizontal and/or vertical strictly-between runs. -/
def chariotMovePath (src dst : Pos) : List Pos :=
  if src ∈ palaceCorners ∧ dst ∈ palaceCorners ∧
      (dst.1 - src.1).natAbs = (dst.2 - src.2).natAbs then
    if src ∈ bluePalaceCorners then [(8, 4)] else [(1, 4)]
  else if (src ∈ palaceCorners ∧ dst ∈ palaceCenters) ∨
      (dst ∈ palaceCorners ∧ src ∈ palaceCenters) then
    []
  else
    (if src.1 = dst.1 then betweenCols src.1 src.2 dst.2 else []) ++
    (if src.2 = dst.2 then betweenRows src.2 src.1 dst.1 else [])

/-- The palace-diagonal acceptance cases shared verbatim by the diagonal
branches of Chariot.is_legal and Cannon.is_legal. -/
def palaceDiagonalOK (src dst : Pos) : Bool :=
  if src ∈ palaceCorners then
    (src ∈ bluePalaceCorners ∧ dst ∈ bluePalaceCorners) ∨
    (src ∈ bluePalaceCorners ∧ dst = bluePalaceCenter) ∨
    (src ∈ redPalaceCorners ∧ dst ∈ redPalaceCorners) ∨
    (src ∈ redPalaceCorners ∧ dst = redPalaceCenter)
  else if src = bluePalaceCenter then dst ∈ bluePalaceCorners
  else if src = redPalaceCenter then dst ∈ redPalaceCorners
  else false

/-- Chariot.is_legal: no friendly piece on the destination, no piece at all
on the move path, and a move changing both row and column is allowed only
along the palace diagonals. -/
def chariotIsLegal (g : Grid) (owner : Color) (src dst : Pos) : Bool :=
  if friendlyAt g owner dst then false
  else if (chariotMovePath src dst).any (fun sq => (getOccupant g sq).isSome) then
    false
  else if src.1 ≠ dst.1 ∧ src.2 ≠ dst.2 then palaceDiagonalOK src dst
  else true

/-- Cannon.move_path: textually the same path computation as the Chariot's. -/
def cannonMovePath (src dst : Pos) : List Pos :=
  if src ∈ palaceCorners ∧ dst ∈ palaceCorners ∧
      (dst.1 - src.1).natAbs = (dst.2 - src.2).natAbs then
    if src ∈ bluePalaceCorners then [(8, 4)] else [(1, 4)]
  else if (src ∈ palaceCorners ∧ dst ∈ palaceCenters) ∨
      (dst ∈ palaceCorners ∧ src ∈ palaceCenters) then
    []
  else
    (if src.1 = dst.1 then betweenCols src.1 src.2 dst.2 else []) ++
    (if src.2 = dst.2 then betweenRows src.2 src.1 dst.1 else [])

/-- The jumps counter of Cannon.is_legal: how many move-path squares hold a
piece. -/
def cannonJumps (g : Grid) (src dst : Pos) : Nat :=
  ((cannonMovePath src dst).filter (fun sq => (getOccupant g sq).isSome)).length

/-- The cannon_in_path flag of Cannon.is_legal: some move-path square holds
a Cannon. -/
def cannonInPath (g : Grid) (src dst : Pos) : Bool :=
  (cannonMovePath src dst).any (fun sq =>
    match getOccupant g sq with
    | some q => q.name = Kind.CA
    | none => false)

/-- The part of Cannon.is_legal after the destination checks: exactly one
piece on the path to jump, no Cannon on the path, and a move changing both
row and column only along the palace diagonals. -/
def cannonPathOK (g : Grid) (src dst : Pos) : Bool :=
  if cannonJumps g src dst = 0 ∨ cannonJumps g src dst > 1 then false
  else if cannonInPath g src dst then false
  else if src.1 ≠ dst.1 ∧ src.2 ≠ dst.2 then palaceDiagonalOK src dst
  else true

/-- Cannon.is_legal: the destination must hold neither a friendly piece nor
a Cannon (the Cannon test sits inside the occupied-destination branch, after
the friendly test), then the path conditions of cannonPathOK. -/
def cannonIsLegal (g : Grid) (owner : Color) (src dst : Pos) : Bool :=
  match getOccupant g dst with
  | some q =>
    if q.owner = owner then false
    else if q.name = Kind.CA then false
    else cannonPathOK g src dst
  | none => cannonPathOK g src dst

/-- Soldier.is_legal: sideways exactly one square, vertically exactly one
square toward the opponent (row - 1 for blue, row + 1 for red), and a move
changing both row and column only along the four fixed palace entry
diagonals d3/f3 to e2, e2 to d1/f1, d8/f8 to e9, e9 to d10/f10 — this
branch never consults the owning color. -/
def soldierIsLegal (g : Grid) (owner : Color) (src dst : Pos) : Bool :=
  if friendlyAt g owner dst then false
  else if src.1 = dst.1 ∧ (dst.2 - src.2).natAbs ≠ 1 then false
  else if src.2 = dst.2 ∧
      (if owner = Color.blue then dst.1 - src.1 ≠ -1 else dst.1 - src.1 ≠ 1) then
    false
  else if src.1 ≠ dst.1 ∧ src.2 ≠ dst.2 then
    if src = ((2, 3) : Pos) ∨ src = ((2, 5) : Pos) then dst = ((1, 4) : Pos)
    else if src = ((1, 4) : Pos) then dst = ((0, 3) : Pos) ∨ dst = ((0, 5) : Pos)
    else if src = ((7, 3) : Pos) ∨ src = ((7, 5) : Pos) then dst = ((8, 4) : Pos)
    else if src = ((8, 4) : Pos) then dst = ((9, 3) : Pos) ∨ dst = ((9, 5) : Pos)
    else false
  else true

/-- Dispatch on the piece kind, the dynamic dispatch of piece.is_legal. -/
def pieceIsLegal (g : Grid) (p : Piece) (src dst : Pos) : Bool :=
  match p.name with
  | .GN => generalIsLegal g p.owner src dst
  | .GD => guardIsLegal g p.owner src dst
  | .EL => elephantIsLegal g p.owner src dst
  | .HO => horseIsLegal g p.owner src dst
  | .CH => chariotIsLegal g p.owner src dst
  | .CA => cannonIsLegal g p.owner src dst
  | .SD => soldierIsLegal g p.owner src dst

/-- Dispatch on the piece kind for move_path; General, Guard and Soldier
return the never-mutated empty Piece._move_path list. -/
def pieceMovePath (k : Kind) (src dst : Pos) : List Pos :=
  match k with
  | .GN => []
  | .GD => []
  | .EL => elephantMovePath src dst
  | .HO => horseMovePath src dst
  | .CH => chariotMovePath src dst
  | .CA => cannonMovePath src dst
  | .SD => []

/- ## Carts, check, speculative moves -/

/-- A player's cart, derived from the grid by the row-major scan with which
initialize_board registers the pieces: all (cell, piece) pairs of the given
color. Board cells and cart entries alias the same Python objects, so the
cart always holds exactly the owner's on-board pieces. -/
def piecesOf (g : Grid) (c : Color) : List (Pos × Piece) :=
  (List.range 10).flatMap (fun r =>
    (List.range 9).filterMap (fun col =>
      match getOccupant g ((r : Int), (col : Int)) with
      | some p => if p.owner = c then some (((r : Int), (col : Int)), p) else none
      | none => none))

/-- Player.get_general: scan the cart and keep the last piece named "GN";
none models the None result of an empty scan (whose later dereference is an
AttributeError). -/
def getGeneral (g : Grid) (c : Color) : Option Piece :=
  ((piecesOf g c).filter (fun pp => pp.2.name = Kind.GN)).getLast?.map (fun pp => pp.2)

/-- Board.is_in_check: find the player's General's recorded location, then
ask every piece of the opposing cart whether its pure movement predicate
reaches that location from the piece's recorded location. none models the
AttributeError raised when the player has no General. -/
def isInCheck (g : Grid) (c : Color) : Option Bool :=
  match getGeneral g c with
  | none => none
  | some gen =>
    some ((piecesOf g (c.other)).any (fun pp => pieceIsLegal g pp.2 pp.2.loc gen.loc))

/-- Board.move_piece on the grid: the captured destination occupant (if any)
vanishes from its owner's cart, the source piece is written to the
destination cell with its recorded location updated, then the source cell is
cleared (in that order, so a move onto the source square itself empties the
cell). none models the AttributeError raised on an empty source. -/
def movePiece (g : Grid) (src dst : Pos) : Option Grid :=
  match getOccupant g src with
  | none => none
  | some p => some (setCell (setCell g dst (some { p with loc := dst })) src none)

/-- Board.undo_temp_move on the grid, given the piece saved by
prep_temp_move: copy the destination cell back to the source cell, reset
that piece's recorded location to the source, then restore the saved
occupant to the destination cell. none models the AttributeError raised
when the destination cell is empty. -/
def undoTempMove (g : Grid) (temp : Option Piece) (src dst : Pos) : Option Grid :=
  match getOccupant g dst with
  | none => none
  | some q => some (setCell (setCell g src (some { q with loc := src })) dst temp)

/-- The prep_temp_move / move_piece / predicate / undo_temp_move sequence
used by Board.is_legal and Board.is_in_checkmate: save the destination
occupant, make the move, evaluate the predicate on the moved board, undo,
and return the predicate's verdict with the board left by the undo. -/
def simulateAndTest (g : Grid) (src dst : Pos) (pred : Grid → Option Bool) :
    Option (Bool × Grid) :=
  let temp := getOccupant g dst
  match movePiece g src dst with
  | none => none
  | some g' =>
    match pred g' with
    | none => none
    | some r =>
      match undoTempMove g' temp src dst with
      | none => none
      | some g'' => some (r, g'')

/-- Board.is_legal: the source occupant's kind-specific movement predicate
must hold, and the simulated move must not leave the mover's own side in
check. none models the AttributeError raised at source_piece.get_owner()
when the source square is empty (and any crash inside the simulation). The
board the simulation leaves behind is discarded here because undo_temp_move
restores it exactly (proved below for the claim about the rollback). -/
def isLegal (g : Grid) (src dst : Pos) : Option Bool :=
  match getOccupant g src with
  | none => none
  | some p =>
    if pieceIsLegal g p src dst then
      match simulateAndTest g src dst (fun g' => isInCheck g' p.owner) with
      | none => none
      | some (chk, _) => some (!chk)
    else some false

/- ## Checkmate search -/

/-- A monadic any over Option, mirroring a Python for-loop that returns True
at the first success: later elements are not evaluated after a success, and
a crash (none) before any success propagates. -/
def anyOpt (f : α → Option Bool) : List α → Option Bool
  | [] => some false
  | a :: as =>
    match f a with
    | none => none
    | some true => some true
    | some false => anyOpt f as

/-- A monadic filter over Option, mirroring the Python loop that appends
every element whose test holds and crashes (none) if any test crashes. -/
def filterOpt (f : α → Option Bool) : List α → Option (List α)
  | [] => some []
  | a :: as =>
    match f a with
    | none => none
    | some b =>
      match filterOpt f as with
      | none => none
      | some rest => some (if b then a :: rest else rest)

/-- The attacker enumeration of Board.is_in_checkmate: every opposing-cart
piece for which the composite Board.is_legal (movement predicate AND the
simulated capture of the General does not leave the attacker's own side in
check) holds from the piece's recorded location to the General's square. -/
def attackerEntries (g : Grid) (opp : Color) (genLoc : Pos) :
    Option (List (Pos × Piece)) :=
  filterOpt (fun pp => isLegal g pp.2.loc genLoc) (piecesOf g opp)

/-- The capture-or-block scan of Board.is_in_checkmate: for each attacker in
turn, first whether any defending piece passes the composite is_legal onto
the attacker's square, then whether any defending piece passes it onto any
square of the attacker's move path to the General. -/
def captureOrBlock (g : Grid) (c : Color) (genLoc : Pos)
    (attackers : List (Pos × Piece)) : Option Bool :=
  anyOpt (fun att =>
    match anyOpt (fun d => isLegal g d.2.loc att.2.loc) (piecesOf g c) with
    | none => none
    | some true => some true
    | some false =>
      anyOpt (fun sq => anyOpt (fun d => isLegal g d.2.loc sq) (piecesOf g c))
        (pieceMovePath att.2.name att.2.loc genLoc)) attackers

/-- The General-escape scan of Board.is_in_checkmate: some square of the
defender's palace that the General's pure movement predicate allows and
whose simulated occupation leaves the defender out of check. -/
def generalEscapes (g : Grid) (c : Color) (gen : Piece) : Option Bool :=
  anyOpt (fun sq =>
    if pieceIsLegal g gen gen.loc sq then
      match simulateAndTest g gen.loc sq (fun g' => isInCheck g' c) with
      | none => none
      | some (stillChk, _) => some (!stillChk)
    else some false) (palaceOf c)

/-- Board.is_in_checkmate: not in check means no checkmate; otherwise the
attackers are enumerated with the composite is_legal, any capture or block
of an attacker refutes checkmate, and otherwise only a General escape does. -/
def isInCheckmate (g : Grid) (c : Color) : Option Bool :=
  match isInCheck g c with
  | none => none
  | some false => some false
  | some true =>
    match getGeneral g c with
    | none => none
    | some gen =>
      match attackerEntries g (c.other) gen.loc with
      | none => none
      | some attackers =>
        match captureOrBlock g c gen.loc attackers with
        | none => none
        | some true => some false
        | some false =>
          match generalEscapes g c gen with
          | none => none
          | some esc => some (!esc)

/- ## The game orchestrator -/

/-- JanggiGame._game_state. -/
inductive GameState where
  | unfinished
  | redWon
  | blueWon
deriving DecidableEq

/-- The JanggiGame object: the board grid, the game state and the current
player (the carts are derived from the grid). -/
structure Game where
  grid : Grid
  gameState : GameState
  currentPlayer : Color
deriving DecidableEq

/-- JanggiGame.make_move. Source and destination arrive as raw text; a
finished game rejects everything; equal strings are a pass, rejected only
when the mover is in check (the comparison happens before any decoding);
then the source is decoded (a KeyError crash is none), its occupant must
exist and belong to the current player, the composite Board.is_legal must
hold, and a committed move toggles the player and runs the checkmate search
on the new mover, a positive result setting the winner of the side that just
moved. -/
def makeMove (game : Game) (source destination : List Char) :
    Option (Bool × Game) :=
  if game.gameState ≠ GameState.unfinished then some (false, game)
  else if source = destination then
    match isInCheck game.grid game.currentPlayer with
    | none => none
    | some true => some (false, game)
    | some false =>
      some (true, { game with currentPlayer := game.currentPlayer.other })
  else
    match decode source with
    | none => none
    | some (sr, sc) =>
      match getOccupant game.grid ((sr : Int), (sc : Int)) with
      | none => some (false, game)
      | some p =>
        if p.owner ≠ game.currentPlayer then some (false, game)
        else
          match decode destination with
          | none => none
          | some (dr, dc) =>
            match isLegal game.grid ((sr : Int), (sc : Int)) ((dr : Int), (dc : Int)) with
            | none => none
            | some false => some (false, game)
            | some true =>
              match movePiece game.grid ((sr : Int), (sc : Int)) ((dr : Int), (dc : Int)) with
              | none => none
              | some g' =>
                let next := game.currentPlayer.other
                match isInCheckmate g' next with
                | none => none
                | some mate =>
                  let st :=
                    if mate then
                      if next = Color.blue then GameState.redWon else GameState.blueWon
                    else game.gameState
                  some (true, { grid := g', gameState := st, currentPlayer := next })

/- ## The opening layout (Board.initialize_board) -/

/-- Shorthand for an occupied cell in the opening layout. -/
def pc (k : Kind) (c : Color) (r col : Int) : Option Piece :=
  some { name := k, owner := c, loc := (r, col) }

/-- The fixed 28-piece opening position of initialize_board, rows 1-10 of
the source becoming indices 0-9 (red at the top, blue at the bottom). -/
def initialGrid : Grid :=
  [ [pc .CH .red 0 0, pc .EL .red 0 1, pc .HO .red 0 2, pc .GD .red 0 3, none,
     pc .GD .red 0 5, pc .EL .red 0 6, pc .HO .red 0 7, pc .CH .red 0 8],
    [none, none, none, none, pc .GN .red 1 4, none, none, none, none],
    [none, pc .CA .red 2 1, none, none, none, none, none, pc .CA .red 2 7, none],
    [pc .SD .red 3 0, none, pc .SD .red 3 2, none, pc .SD .red 3 4, none,
     pc .SD .red 3 6, none, pc .SD .red 3 8],
    [none, none, none, none, none, none, none, none, none],
    [none, none, none, none, none, none, none, none, none],
    [pc .SD .blue 6 0, none, pc .SD .blue 6 2, none, pc .SD .blue 6 4, none,
     pc .SD .blue 6 6, none, pc .SD .blue 6 8],
    [none, pc .CA .blue 7 1, none, none, none, none, none, pc .CA .blue 7 7, none],
    [none, none, none, none, pc .GN .blue 8 4, none, none, none, none],
    [pc .CH .blue 9 0, pc .EL .blue 9 1, pc .HO .blue 9 2, pc .GD .blue 9 3, none,
     pc .GD .blue 9 5, pc .EL .blue 9 6, pc .HO .blue 9 7, pc .CH .blue 9 8] ]

/-- The freshly constructed JanggiGame: initial layout, UNFINISHED, blue to
move. -/
def initialGame : Game :=
  { grid := initialGrid, gameState := GameState.unfinished, currentPlayer := Color.blue }

/- ## Auxiliary definitions used to state and test the claims -/

/-- A grid of empty cells with the board's 10-by-9 shape. -/
def emptyGrid : Grid := List.replicate 10 (List.replicate 9 none)

/-- The pair key identifying the concrete cell a position indexes. -/
def posKey (p : Pos) : Nat × Nat := (p.1.toNat, p.2.toNat)

/-- The forward vertical step hard-coded in the column-preserving branch of
Soldier.is_legal: row - 1 for blue, row + 1 for red. -/
def forwardStep : Color → Int
  | .blue => -1
  | .red => 1

/-- The eight diagonal (source, destination) steps accepted by the diagonal
branch of Soldier.is_legal: d3/f3 to e2, e2 to d1/f1, d8/f8 to e9, e9 to
d10/f10. -/
def soldierDiagSteps : List (Pos × Pos) :=
  [((2, 3), (1, 4)), ((2, 5), (1, 4)), ((1, 4), (0, 3)), ((1, 4), (0, 5)),
   ((7, 3), (8, 4)), ((7, 5), (8, 4)), ((8, 4), (9, 3)), ((8, 4), (9, 5))]

/-- The strings on which decode_location actually succeeds, phrased as a
grammar: a letter a-i, then either exactly the two characters 1 and 0 (for a
total length of three), or a second character 1-9 with any trailing
characters (which lengths other than three never examine). -/
def decodeAccepts (l : List Char) : Bool :=
  match l with
  | c :: d :: rest =>
    (columnKey c).isSome &&
      (if rest.length = 1 then decide (d = '1') && decide (rest = ['0'])
       else (rowKeyChar d).isSome)
  | _ => false

/-- The 90 well-formed coordinate strings of the spec: one letter a-i
followed by the digits of a number 1-10 and nothing else. -/
def validTexts : List (List Char) :=
  (['a', 'b', 'c', 'd', 'e', 'f', 'g', 'h', 'i']).flatMap (fun ch =>
    ([['1'], ['2'], ['3'], ['4'], ['5'], ['6'], ['7'], ['8'], ['9'],
      ['1', '0']]).map (fun rs => ch :: rs))

/-- A pinned-attacker position: blue General e9, blue Chariot e3, red
General e2, red Chariot e5. The red Chariot's pure movement predicate
reaches e9, but capturing the blue General would expose the red General on
the open e-file to the blue Chariot. -/
def pinnedGrid : Grid :=
  setCell (setCell (setCell (setCell emptyGrid
    ((8 : Int), (4 : Int)) (pc .GN .blue 8 4))
    ((2 : Int), (4 : Int)) (pc .CH .blue 2 4))
    ((1 : Int), (4 : Int)) (pc .GN .red 1 4))
    ((4 : Int), (4 : Int)) (pc .CH .red 4 4)

/-- The red Chariot of pinnedGrid. -/
def pinnedChariot : Piece := { name := .CH, owner := .red, loc := (4, 4) }

/-- An unpinned variant of pinnedGrid without the blue Chariot, so the red
Chariot passes the composite legality onto the blue General's square. -/
def freeAttackGrid : Grid :=
  setCell (setCell (setCell emptyGrid
    ((8 : Int), (4 : Int)) (pc .GN .blue 8 4))
    ((1 : Int), (4 : Int)) (pc .GN .red 1 4))
    ((4 : Int), (4 : Int)) (pc .CH .red 4 4)

/-- The red Chariot of freeAttackGrid. -/
def freeChariot : Piece := { name := .CH, owner := .red, loc := (4, 4) }

/-- The pinned position as a game with blue to move. -/
def pinnedGame : Game :=
  { grid := pinnedGrid, gameState := GameState.unfinished, currentPlayer := Color.blue }

/-- pinnedGrid after the blue Chariot steps e3 to d3, unblocking nothing but
failing to block the red Chariot's line to the blue General. -/
def pinnedMovedGrid : Grid :=
  setCell (setCell pinnedGrid ((2 : Int), (3 : Int)) (pc .CH .blue 2 3))
    ((2 : Int), (4 : Int)) none

/-- A Cannon test position: red Cannon e3, blue Soldier screen e5, blue
Chariot target e7. -/
def cannonGrid : Grid :=
  setCell (setCell (setCell emptyGrid
    ((2 : Int), (4 : Int)) (pc .CA .red 2 4))
    ((4 : Int), (4 : Int)) (pc .SD .blue 4 4))
    ((6 : Int), (4 : Int)) (pc .CH .blue 6 4)

/-- A red Soldier standing on d3 in its own palace (a square it can never
reach in normal play, since red Soldiers only ever move toward higher
rows). -/
def redOnD3Grid : Grid :=
  setCell emptyGrid ((2 : Int), (3 : Int)) (pc .SD .red 2 3)

/-- A blue Soldier standing on d3, about to enter the red palace. -/
def blueOnD3Grid : Grid :=
  setCell emptyGrid ((2 : Int), (3 : Int)) (pc .SD .blue 2 3)

/- ## List and grid helper lemmas -/

theorem listSet_of_get? {α : Type} {l : List α} {n : Nat} {a : α}
    (h : l.get? n = some a) : l.set n a = l := by
  induction l generalizing n with
  | nil => simp at h
  | cons x xs ih =>
    cases n with
    | zero => simp_all
    | succ m => simp_all

theorem lt_length_of_get? {α : Type} {l : List α} {n : Nat} {a : α}
    (h : l.get? n = some a) : n < l.length :=
  (List.get?_eq_some.mp h).choose

theorem listGet?_set_self {α : Type} {l : List α} {n : Nat} (a : α)
    (h : n < l.length) : (l.set n a).get? n = some a := by
  rw [List.get?_eq_getElem?]
  simp [h]

theorem listGet?_set_ne {α : Type} {l : List α} {n m : Nat} (a : α)
    (h : n ≠ m) : (l.set n a).get? m = l.get? m := by
  simp [List.get?_eq_getElem?, List.getElem?_set_ne h]

/-- The row and in-row index of an in-range position on a well-formed grid
always exist. -/
theorem cellExists {g : Grid} {p : Pos} (hwf : gridWF g) (hp : inRange p) :
    ∃ row, g.get? p.1.toNat = some row ∧ p.2.toNat < row.length := by
  obtain ⟨hlen, hrows⟩ := hwf
  obtain ⟨h0r, hr, h0c, hc⟩ := hp
  have hr' : p.1.toNat < g.length := by rw [hlen]; omega
  cases hrow : g.get? p.1.toNat with
  | none =>
    rw [List.get?_eq_none] at hrow
    omega
  | some row =>
    refine ⟨row, rfl, ?_⟩
    have hmem : row ∈ g := List.get?_mem hrow
    rw [hrows row hmem]
    omega

/-- Reading a cell just written. -/
theorem getOccupant_setCell_self {g : Grid} {p : Pos} (v : Option Piece)
    (hwf : gridWF g) (hp : inRange p) :
    getOccupant (setCell g p v) p = v := by
  obtain ⟨row, hrow, hcol⟩ := cellExists hwf hp
  have hr : p.1.toNat < g.length := lt_length_of_get? hrow
  simp only [setCell, getOccupant, hrow, if_pos hp,
    listGet?_set_self (row.set p.2.toNat v) hr, listGet?_set_self v hcol]

/-- Writing one cell leaves every other cell unchanged. -/
theorem getOccupant_setCell_ne {g : Grid} {p q : Pos} (v : Option Piece)
    (h : posKey p ≠ posKey q) :
    getOccupant (setCell g p v) q = getOccupant g q := by
  cases hrow : g.get? p.1.toNat with
  | none => simp only [setCell, hrow]
  | some row =>
    by_cases hq : inRange q
    · by_cases hr : p.1.toNat = q.1.toNat
      · have hc : p.2.toNat ≠ q.2.toNat := by
          intro hc; exact h (Prod.ext hr hc)
        simp only [setCell, hrow, getOccupant, if_pos hq, ← hr,
          listGet?_set_self (row.set p.2.toNat v) (lt_length_of_get? hrow),
          hrow, listGet?_set_ne v hc]
      · simp only [setCell, hrow, getOccupant, if_pos hq, listGet?_set_ne _ hr]
    · simp only [setCell, hrow, getOccupant, if_neg hq]

/-- Writing the same cell twice keeps only the second write. -/
theorem setCell_setCell_self (g : Grid) (p : Pos) (u v : Option Piece) :
    setCell (setCell g p u) p v = setCell g p v := by
  cases hrow : g.get? p.1.toNat with
  | none => simp only [setCell, hrow]
  | some row =>
    simp only [setCell, hrow,
      listGet?_set_self (row.set p.2.toNat u) (lt_length_of_get? hrow),
      List.set_set]

/-- Writes to distinct cells commute. -/
theorem setCell_comm (g : Grid) {p q : Pos} (u v : Option Piece)
    (h : posKey p ≠ posKey q) :
    setCell (setCell g p u) q v = setCell (setCell g q v) p u := by
  by_cases hr : p.1.toNat = q.1.toNat
  · have hc : p.2.toNat ≠ q.2.toNat := by
      intro hc; exact h (Prod.ext hr hc)
    cases hrow : g.get? p.1.toNat with
    | none => simp only [setCell, ← hr, hrow]
    | some row =>
      simp only [setCell, ← hr, hrow,
        listGet?_set_self (row.set p.2.toNat u) (lt_length_of_get? hrow),
        listGet?_set_self (row.set q.2.toNat v) (lt_length_of_get? hrow),
        List.set_set]
      rw [List.set_comm _ _ _ hc]
  · cases hrowp : g.get? p.1.toNat with
    | none =>
      cases hrowq : g.get? q.1.toNat with
      | none => simp only [setCell, hrowp, hrowq]
      | some rowq =>
        simp only [setCell, hrowp, hrowq, listGet?_set_ne _ (fun e => hr e.symm)]
    | some rowp =>
      cases hrowq : g.get? q.1.toNat with
      | none =>
        simp only [setCell, hrowp, hrowq, listGet?_set_ne _ hr]
      | some rowq =>
        simp only [setCell, hrowp, hrowq, listGet?_set_ne _ hr,
          listGet?_set_ne _ (fun e => hr e.symm)]
        rw [List.set_comm _ _ _ hr]

/-- Writing back the value a cell already holds changes nothing. -/
theorem setCell_restore {g : Grid} {p : Pos} (hwf : gridWF g) (hp : inRange p) :
    setCell g p (getOccupant g p) = g := by
  obtain ⟨row, hrow, hcol⟩ := cellExists hwf hp
  cases hcell : row.get? p.2.toNat with
  | none =>
    rw [List.get?_eq_none] at hcell
    omega
  | some cell =>
    have hocc : getOccupant g p = cell := by
      simp only [getOccupant, if_pos hp, hrow, hcell]
    rw [hocc]
    simp only [setCell, hrow, listSet_of_get? hcell, listSet_of_get? hrow]

/-- An occupied cell is in range. -/
theorem inRange_of_getOccupant_some {g : Grid} {p : Pos} {piece : Piece}
    (h : getOccupant g p = some piece) : inRange p := by
  unfold getOccupant at h
  by_cases hp : inRange p
  · exact hp
  · rw [if_neg hp] at h; exact absurd h (by simp)

/-- Distinct in-range positions index distinct cells. -/
theorem posKey_ne {p q : Pos} (hp : inRange p) (hq : inRange q) (h : p ≠ q) :
    posKey p ≠ posKey q := by
  obtain ⟨hp1, _, hp2, _⟩ := hp
  obtain ⟨hq1, _, hq2, _⟩ := hq
  intro hk
  apply h
  have h1 : p.1.toNat = q.1.toNat := congrArg Prod.fst hk
  have h2 : p.2.toNat = q.2.toNat := congrArg Prod.snd hk
  have e1 : p.1 = q.1 := by omega
  have e2 : p.2 = q.2 := by omega
  exact Prod.ext e1 e2

/- ## Claim C2: simulate-and-rollback restores the board -/

/-- After the temporary move of the piece at src onto a different in-range
square dst, undo_temp_move with the saved destination occupant rebuilds
exactly the original grid. -/
theorem undoTempMove_restores {g : Grid} {src dst : Pos} {nm : Kind} {ow : Color}
    (hwf : gridWF g) (hocc : getOccupant g src = some ⟨nm, ow, src⟩)
    (hdst : inRange dst) (hne : src ≠ dst) :
    undoTempMove (setCell (setCell g dst (some ⟨nm, ow, dst⟩)) src none)
      (getOccupant g dst) src dst = some g := by
  have hsrc : inRange src := inRange_of_getOccupant_some hocc
  have hkey : posKey src ≠ posKey dst := posKey_ne hsrc hdst hne
  have hread :
      getOccupant (setCell (setCell g dst (some ⟨nm, ow, dst⟩)) src none) dst
        = some ⟨nm, ow, dst⟩ := by
    rw [getOccupant_setCell_ne _ hkey]
    exact getOccupant_setCell_self _ hwf hdst
  simp only [undoTempMove, hread]
  rw [setCell_setCell_self, setCell_comm _ _ _ hkey, setCell_setCell_self,
    setCell_restore hwf hdst, ← hocc, setCell_restore hwf hsrc]

/-- C2 (amended): for every well-formed board, every source cell holding a
piece whose recorded location matches its cell, every in-range destination
DISTINCT from the source, and every predicate that returns, the
prep_temp_move / move_piece / predicate / undo_temp_move sequence hands back
a board in which every cell holds exactly the occupant (same piece, same
recorded location) it held before, whatever the predicate answered. With
source equal to destination the sequence instead crashes (see the
counterexample below), which is the one correction to the claim. -/
theorem simulateAndTest_restores_grid (g : Grid) (src dst : Pos) (p : Piece)
    (pred : Grid → Option Bool)
    (hwf : gridWF g) (hocc : getOccupant g src = some p) (hsync : p.loc = src)
    (hdst : inRange dst) (hne : src ≠ dst)
    (hpred : ∀ g2, (pred g2).isSome) :
    (simulateAndTest g src dst pred).map Prod.snd = some g := by
  obtain ⟨nm, ow, lc⟩ := p
  simp only at hsync
  rw [hsync] at hocc
  simp only [simulateAndTest, movePiece, hocc]
  cases hr : pred (setCell (setCell g dst (some ⟨nm, ow, dst⟩)) src none) with
  | none =>
    have := hpred (setCell (setCell g dst (some ⟨nm, ow, dst⟩)) src none)
    rw [hr] at this
    simp at this
  | some r =>
    simp only [hr, undoTempMove_restores hwf hocc hdst hne, Option.map_some']


/-- C2 witness: the opening board, the blue Soldier on e7 moved to e6 and
rolled back, with a constant predicate. -/
theorem simulateAndTest_restores_grid_witness :
    (simulateAndTest initialGrid ((6 : Int), (4 : Int)) ((5 : Int), (4 : Int))
      (fun _ => some true)).map Prod.snd = some initialGrid :=
  simulateAndTest_restores_grid initialGrid ((6 : Int), (4 : Int)) ((5 : Int), (4 : Int))
    ⟨Kind.SD, Color.blue, ((6 : Int), (4 : Int))⟩ (fun _ => some true)
    (by decide) (by decide) rfl (by decide) (by decide) (fun _ => rfl)

/-- C2 counterexample: with source equal to destination the sequence does
not restore the board — move_piece first writes the piece to the (same)
destination cell and then clears the source cell, so undo_temp_move finds
the cell empty and crashes dereferencing None, modelled as none. -/
theorem simulateAndTest_source_eq_dest_crashes :
    simulateAndTest initialGrid ((6 : Int), (4 : Int)) ((6 : Int), (4 : Int))
      (fun _ => some true) = none := by decide

/- ## Claim C6: Board.is_legal on an empty source square -/

/-- C6 (amended): when the source square is empty, Board.is_legal does not
return False — it crashes dereferencing None at source_piece.get_owner()
(modelled: none); the uniform False answer for an empty source is instead
produced by JanggiGame.make_move, which checks get_occupant(source) is None
before ever calling Board.is_legal and returns False without mutating any
state. -/
theorem isLegal_empty_source_crashes (game : Game) (source destination : List Char)
    (s : Nat × Nat) (d : Pos)
    (hstate : game.gameState = GameState.unfinished)
    (hdec : decode source = some s)
    (hne : source ≠ destination)
    (hocc : getOccupant game.grid ((s.1 : Int), (s.2 : Int)) = none) :
    isLegal game.grid ((s.1 : Int), (s.2 : Int)) d = none ∧
      makeMove game source destination = some (false, game) := by
  constructor
  · simp only [isLegal, hocc]
  · simp only [makeMove, hstate, hne, hdec, hocc]
    simp

/-- C6 witness: the empty square e5 of the opening board, the move request
e5 to e6 of the spec's second scenario. -/
theorem isLegal_empty_source_crashes_witness :
    isLegal initialGame.grid ((4 : Int), (4 : Int)) ((3 : Int), (4 : Int)) = none ∧
      makeMove initialGame ['e', '5'] ['e', '6'] = some (false, initialGame) :=
  isLegal_empty_source_crashes initialGame ['e', '5'] ['e', '6'] (4, 4)
    ((3 : Int), (4 : Int)) rfl (by decide) (by decide) (by decide)

/-- C6 counterexample: Board.is_legal on the empty opening square e5 yields
an error (none), not the False the claim asserts. -/
theorem isLegal_empty_source_not_false :
    getOccupant initialGrid ((4 : Int), (4 : Int)) = none ∧
      isLegal initialGrid ((4 : Int), (4 : Int)) ((3 : Int), (4 : Int)) ≠ some false := by
  decide

/- ## Claim C10: a pass request compares raw strings before decoding -/

/-- C10: while the game is UNFINISHED and the current player is not in
check, make_move accepts source = destination as a pass and toggles the
player for ANY string, valid coordinate or not, because the equality test
precedes all decoding and occupancy checks. -/
theorem makeMove_pass_any_string (game : Game) (s : List Char)
    (hstate : game.gameState = GameState.unfinished)
    (hchk : isInCheck game.grid game.currentPlayer = some false) :
    makeMove game s s =
      some (true, { game with currentPlayer := game.currentPlayer.other }) := by
  simp only [makeMove, hstate, hchk]
  simp

/-- C10 witness: the nonsense string zz passes the opening position. -/
theorem makeMove_pass_any_string_witness :
    makeMove initialGame ['z', 'z'] ['z', 'z'] =
      some (true, { grid := initialGrid, gameState := GameState.unfinished,
                    currentPlayer := Color.red }) :=
  makeMove_pass_any_string initialGame ['z', 'z'] rfl (by decide)

/- ## Claim C9: turn alternation -/

/-- C9: whenever make_move returns, the color to move afterward is the
opposite of the color before exactly when the call returned True (an
accepted move or pass), and unchanged when it returned False. -/
theorem makeMove_turn_alternation (game : Game) (source destination : List Char) :
    (makeMove game source destination).map (fun rg => rg.2.currentPlayer) =
      (makeMove game source destination).map
        (fun rg => if rg.1 then game.currentPlayer.other else game.currentPlayer) := by
  unfold makeMove
  repeat' split
  all_goals try simp
  rename_i g2 hg2
  cases h3 : isInCheckmate g2 game.currentPlayer.other <;> simp

/- ## Claim C1: no accepted move may leave the mover's own General attacked -/

theorem columnKey_lt {ch : Char} {c : Nat} (h : columnKey ch = some c) : c < 9 := by
  unfold columnKey at h
  split_ifs at h <;> simp_all <;> omega

theorem rowKeyChar_lt {ch : Char} {r : Nat} (h : rowKeyChar ch = some r) : r < 10 := by
  unfold rowKeyChar at h
  split_ifs at h <;> simp_all <;> omega

theorem rowKeySlice_lt {s : List Char} {r : Nat} (h : rowKeySlice s = some r) : r < 10 := by
  unfold rowKeySlice at h
  split_ifs at h <;> simp_all <;> omega

/-- Everything decode_location accepts denotes a board square. -/
theorem decode_bounds {l : List Char} {s : Nat × Nat} (h : decode l = some s) :
    s.1 < 10 ∧ s.2 < 9 := by
  cases e0 : l.get? 0 with
  | none =>
    simp only [decode, e0] at h
    simp at h
  | some ch0 =>
    cases e1 : columnKey ch0 with
    | none =>
      simp only [decode, e0, e1] at h
      simp at h
    | some col =>
      by_cases hlen : l.length = 3
      · cases e2 : rowKeySlice (l.drop 1) with
        | none =>
          simp only [decode, e0, e1, if_pos hlen, e2] at h
          simp at h
        | some row =>
          simp only [decode, e0, e1, if_pos hlen, e2, Option.some.injEq] at h
          rw [← h]
          exact ⟨rowKeySlice_lt e2, columnKey_lt e1⟩
      · cases e2 : l.get? 1 with
        | none =>
          simp only [decode, e0, e1, if_neg hlen, e2] at h
          simp at h
        | some ch1 =>
          cases e3 : rowKeyChar ch1 with
          | none =>
            simp only [decode, e0, e1, if_neg hlen, e2, e3] at h
            simp at h
          | some row =>
            simp only [decode, e0, e1, if_neg hlen, e2, e3, Option.some.injEq] at h
            rw [← h]
            exact ⟨rowKeyChar_lt e3, columnKey_lt e1⟩

/-- Decoded coordinates are in range as signed board positions. -/
theorem decode_inRange {l : List Char} {s : Nat × Nat} (h : decode l = some s) :
    inRange ((s.1 : Int), (s.2 : Int)) := by
  obtain ⟨h1, h2⟩ := decode_bounds h
  have c1 : ((s.1 : Int), (s.2 : Int)).1 = (s.1 : Int) := rfl
  have c2 : ((s.1 : Int), (s.2 : Int)).2 = (s.2 : Int) := rfl
  unfold inRange
  rw [c1, c2]
  omega

/-- The simulate / test / undo sequence completes and reports the
predicate's verdict whenever the source is occupied and the destination is a
distinct in-range square. -/
theorem simulateAndTest_eval {g : Grid} {src dst : Pos} {p : Piece}
    (pred : Grid → Option Bool) (r : Bool)
    (hwf : gridWF g) (hocc : getOccupant g src = some p)
    (hdst : inRange dst) (hne : src ≠ dst)
    (hpred : pred (setCell (setCell g dst (some { p with loc := dst })) src none) = some r) :
    (simulateAndTest g src dst pred).map Prod.fst = some r := by
  have hsrc : inRange src := inRange_of_getOccupant_some hocc
  have hkey : posKey src ≠ posKey dst := posKey_ne hsrc hdst hne
  have hread :
      getOccupant (setCell (setCell g dst (some { p with loc := dst })) src none) dst
        = some { p with loc := dst } := by
    rw [getOccupant_setCell_ne _ hkey]
    exact getOccupant_setCell_self _ hwf hdst
  simp only [simulateAndTest, movePiece, hocc, hpred, undoTempMove, hread, Option.map_some']

/-- C1: whenever the game is UNFINISHED and a move between two distinct
decoded squares would leave the moving piece's owner's General attacked by
some opposing piece's pure movement predicate, make_move returns False and
leaves the game (board, state and turn) untouched — even if the piece's own
movement rule allows the move. -/
theorem makeMove_rejects_self_check (game : Game) (source destination : List Char)
    (s d : Nat × Nat) (p : Piece) (g' : Grid)
    (hwf : gridWF game.grid)
    (hstate : game.gameState = GameState.unfinished)
    (hsrc : decode source = some s)
    (hdst : decode destination = some d)
    (hne : s ≠ d)
    (hocc : getOccupant game.grid ((s.1 : Int), (s.2 : Int)) = some p)
    (hmove : movePiece game.grid ((s.1 : Int), (s.2 : Int)) ((d.1 : Int), (d.2 : Int))
      = some g')
    (hcheck : isInCheck g' p.owner = some true) :
    makeMove game source destination = some (false, game) := by
  have hneS : source ≠ destination := by
    intro e
    rw [e, hdst, Option.some.injEq] at hsrc
    exact hne hsrc.symm
  have hneI : ((s.1 : Int), (s.2 : Int)) ≠ ((d.1 : Int), (d.2 : Int)) := by
    intro e
    apply hne
    have e1 : (s.1 : Int) = (d.1 : Int) := congrArg Prod.fst e
    have e2 : (s.2 : Int) = (d.2 : Int) := congrArg Prod.snd e
    have e1' : s.1 = d.1 := by exact_mod_cast e1
    have e2' : s.2 = d.2 := by exact_mod_cast e2
    exact Prod.ext e1' e2'
  have hdstR : inRange ((d.1 : Int), (d.2 : Int)) := decode_inRange hdst
  have hg' : setCell (setCell game.grid ((d.1 : Int), (d.2 : Int))
      (some { p with loc := ((d.1 : Int), (d.2 : Int)) })) ((s.1 : Int), (s.2 : Int)) none
      = g' := by
    have hm := hmove
    simp only [movePiece, hocc, Option.some.injEq] at hm
    exact hm
  have hlegal : isLegal game.grid ((s.1 : Int), (s.2 : Int)) ((d.1 : Int), (d.2 : Int))
      = some false := by
    simp only [isLegal, hocc]
    by_cases hpl : pieceIsLegal game.grid p ((s.1 : Int), (s.2 : Int)) ((d.1 : Int), (d.2 : Int))
    · rw [if_pos hpl]
      have hfst := simulateAndTest_eval (fun g2 => isInCheck g2 p.owner) true
        hwf hocc hdstR hneI (by rw [hg']; exact hcheck)
      cases hsim : simulateAndTest game.grid ((s.1 : Int), (s.2 : Int))
          ((d.1 : Int), (d.2 : Int)) (fun g2 => isInCheck g2 p.owner) with
      | none =>
        rw [hsim] at hfst
        simp at hfst
      | some pr =>
        rw [hsim] at hfst
        simp only [Option.map_some', Option.some.injEq] at hfst
        simp [hsim, hfst]
    · rw [if_neg hpl]
  simp only [makeMove, hstate, hneS, hsrc, hocc, hdst, hlegal]
  by_cases how : p.owner ≠ game.currentPlayer
  · simp [how]
  · simp [how]

/-- C1 witness: in the pinned position, blue's Chariot stepping e3 to d3
abandons the e-file, so the red Chariot's pure predicate reaches the blue
General; the request is refused and the game is unchanged. -/
theorem makeMove_rejects_self_check_witness :
    makeMove pinnedGame ['e', '3'] ['d', '3'] = some (false, pinnedGame) :=
  makeMove_rejects_self_check pinnedGame ['e', '3'] ['d', '3'] (2, 4) (2, 3)
    { name := .CH, owner := .blue, loc := ((2 : Int), (4 : Int)) } pinnedMovedGrid
    (by decide) rfl (by decide) (by decide) (by decide) (by decide) (by decide) (by decide)

/- ## Claim C3: the checkmate search's attacker list -/

/-- Membership in a successful monadic filter. -/
theorem filterOpt_mem {α : Type} {f : α → Option Bool} :
    ∀ {xs l : List α}, filterOpt f xs = some l →
      ∀ a, a ∈ l ↔ a ∈ xs ∧ f a = some true := by
  intro xs
  induction xs with
  | nil =>
    intro l h a
    simp only [filterOpt, Option.some.injEq] at h
    subst h
    simp
  | cons x xs ih =>
    intro l h a
    cases hf : f x with
    | none =>
      simp only [filterOpt, hf] at h
      simp at h
    | some b =>
      cases hrest : filterOpt f xs with
      | none =>
        simp only [filterOpt, hf, hrest] at h
        simp at h
      | some rest =>
        simp only [filterOpt, hf, hrest, Option.some.injEq] at h
        subst h
        have hih := ih hrest a
        cases b with
        | true =>
          rw [if_pos rfl]
          simp only [List.mem_cons, hih]
          constructor
          · rintro (rfl | ⟨hmem, hfa⟩)
            · exact ⟨Or.inl rfl, hf⟩
            · exact ⟨Or.inr hmem, hfa⟩
          · rintro ⟨rfl | hmem, hfa⟩
            · exact Or.inl rfl
            · exact Or.inr ⟨hmem, hfa⟩
        | false =>
          rw [if_neg (by simp)]
          rw [hih]
          constructor
          · rintro ⟨hmem, hfa⟩
            exact ⟨List.mem_cons_of_mem x hmem, hfa⟩
          · rintro ⟨hmem, hfa⟩
            rcases List.mem_cons.mp hmem with rfl | hmem'
            · rw [hf] at hfa
              simp at hfa
            · exact ⟨hmem', hfa⟩

/-- Unfolding a positive composite legality verdict: an occupant exists,
its pure movement predicate holds, and the simulated move reports the
mover's own side NOT in check. -/
theorem isLegal_eq_some_true {g : Grid} {s d : Pos} :
    isLegal g s d = some true ↔
      ∃ q, getOccupant g s = some q ∧ pieceIsLegal g q s d = true ∧
        (simulateAndTest g s d (fun g2 => isInCheck g2 q.owner)).map Prod.fst
          = some false := by
  cases hocc : getOccupant g s with
  | none =>
    simp only [isLegal, hocc]
    simp
  | some q =>
    simp only [isLegal, hocc, Option.some.injEq]
    constructor
    · intro h
      by_cases hp : pieceIsLegal g q s d = true
      · rw [if_pos hp] at h
        cases hsim : simulateAndTest g s d (fun g2 => isInCheck g2 q.owner) with
        | none =>
          simp only [hsim] at h
          simp at h
        | some pr =>
          simp only [hsim, Option.some.injEq] at h
          refine ⟨q, rfl, hp, ?_⟩
          rw [hsim, Option.map_some']
          simp only [Option.some.injEq]
          cases hchk : pr.1 with
          | false => rfl
          | true =>
            rw [hchk] at h
            simp at h
      · rw [if_neg hp] at h
        simp at h
    · rintro ⟨q', hq', hp, hsim⟩
      subst hq'
      rw [if_pos hp]
      cases hs2 : simulateAndTest g s d (fun g2 => isInCheck g2 q.owner) with
      | none =>
        rw [hs2] at hsim
        simp at hsim
      | some pr =>
        rw [hs2, Option.map_some', Option.some.injEq] at hsim
        simp only [Option.some.injEq]
        rw [hsim]
        rfl

/-- C3 (amended): the attacker list enumerated in step 1 of
Board.is_in_checkmate holds exactly the opposing pieces that pass the
COMPOSITE Board.is_legal from their square to the General's square — an
occupant whose pure movement predicate reaches the General AND whose
simulated capture of the General does not leave the attacker's own side in
check. Membership therefore DOES depend on the attacker's own self-check
status, contrary to the claim (see the pinned counterexample). -/
theorem attackerEntries_use_composite_legality (g : Grid) (opp : Color) (genLoc : Pos)
    (l : List (Pos × Piece)) (h : attackerEntries g opp genLoc = some l)
    (pp : Pos × Piece) :
    pp ∈ l ↔ pp ∈ piecesOf g opp ∧
      ∃ q, getOccupant g pp.2.loc = some q ∧ pieceIsLegal g q pp.2.loc genLoc = true ∧
        (simulateAndTest g pp.2.loc genLoc (fun g2 => isInCheck g2 q.owner)).map Prod.fst
          = some false := by
  rw [filterOpt_mem h pp, isLegal_eq_some_true]

/-- C3 witness: with no pin, the red Chariot on e5 is listed as an attacker
of the blue General on e9 — its pure predicate reaches e9 and the simulated
capture leaves red safe. -/
theorem attackerEntries_use_composite_legality_witness :
    (((4 : Int), (4 : Int)), freeChariot) ∈ piecesOf freeAttackGrid Color.red ∧
      ∃ q, getOccupant freeAttackGrid freeChariot.loc = some q ∧
        pieceIsLegal freeAttackGrid q freeChariot.loc ((8 : Int), (4 : Int)) = true ∧
        (simulateAndTest freeAttackGrid freeChariot.loc ((8 : Int), (4 : Int))
          (fun g2 => isInCheck g2 q.owner)).map Prod.fst = some false :=
  (attackerEntries_use_composite_legality freeAttackGrid Color.red ((8 : Int), (4 : Int))
    [(((4 : Int), (4 : Int)), freeChariot)] (by decide)
    (((4 : Int), (4 : Int)), freeChariot)).mp (by decide)

/-- C3 counterexample: in the pinned position the red Chariot's pure
movement predicate reaches the blue General on e9, yet the attacker
enumeration of is_in_checkmate comes back empty, because capturing the
General would expose the red General to the blue Chariot — membership does
depend on the attacker's own self-check, and the enumerated set is not the
set the claim describes. -/
theorem pinned_attacker_excluded :
    pieceIsLegal pinnedGrid pinnedChariot ((4 : Int), (4 : Int)) ((8 : Int), (4 : Int)) = true ∧
      attackerEntries pinnedGrid Color.red ((8 : Int), (4 : Int)) = some [] := by
  decide

/- ## Claim C4: Cannon movement -/

/-- The all-squares-hold-no-Cannon reading of the cannon_in_path flag. -/
theorem cannonInPath_eq (g : Grid) (src dst : Pos) :
    (cannonMovePath src dst).all
        (fun sq => (getOccupant g sq).all (fun q => !(decide (q.name = Kind.CA))))
      = !(cannonInPath g src dst) := by
  unfold cannonInPath
  generalize cannonMovePath src dst = path
  induction path with
  | nil => rfl
  | cons sq rest ih =>
    simp only [List.all_cons, List.any_cons, Bool.not_or, ih]
    cases getOccupant g sq with
    | none => simp
    | some q => simp [Option.all]

/-- Splitting a successful cannonPathOK into its three conditions. -/
theorem cannonPathOK_parts {g : Grid} {src dst : Pos}
    (h : cannonPathOK g src dst = true) :
    cannonJumps g src dst = 1 ∧ cannonInPath g src dst = false ∧
      (src.1 = dst.1 ∨ src.2 = dst.2 ∨ palaceDiagonalOK src dst = true) := by
  unfold cannonPathOK at h
  by_cases hj : cannonJumps g src dst = 0 ∨ cannonJumps g src dst > 1
  · rw [if_pos hj] at h
    simp at h
  · rw [if_neg hj] at h
    push_neg at hj
    have hj1 : cannonJumps g src dst = 1 := by omega
    by_cases hc : cannonInPath g src dst = true
    · rw [if_pos hc] at h
      simp at h
    · rw [if_neg hc] at h
      refine ⟨hj1, by simpa using hc, ?_⟩
      by_cases hd : src.1 ≠ dst.1 ∧ src.2 ≠ dst.2
      · rw [if_pos hd] at h
        exact Or.inr (Or.inr h)
      · rw [not_and_or, not_not, not_not] at hd
        rcases hd with hd | hd
        · exact Or.inl hd
        · exact Or.inr (Or.inl hd)

/-- Assembling cannonPathOK from its three conditions. -/
theorem cannonPathOK_of {g : Grid} {src dst : Pos}
    (hslide : src.1 = dst.1 ∨ src.2 = dst.2 ∨ palaceDiagonalOK src dst = true)
    (hj : cannonJumps g src dst = 1) (hc : cannonInPath g src dst = false) :
    cannonPathOK g src dst = true := by
  unfold cannonPathOK
  rw [if_neg (by omega)]
  rw [if_neg (by simp [hc])]
  by_cases hd : src.1 ≠ dst.1 ∧ src.2 ≠ dst.2
  · rw [if_pos hd]
    rcases hslide with hs | hs | hs
    · exact absurd hs hd.1
    · exact absurd hs hd.2
    · exact hs
  · rw [if_neg hd]

/-- C4: a Cannon move is accepted exactly under the spec's conditions — the
strictly-between path holds exactly one piece (not zero, not more), no
Cannon stands on the path, and the destination holds neither a friendly
piece nor a Cannon of either side; conversely any orthogonal or
palace-diagonal Cannon slide meeting those conditions is accepted. -/
theorem cannon_legality_characterization (g : Grid) (owner : Color) (src dst : Pos) :
    (cannonIsLegal g owner src dst = true →
      cannonJumps g src dst = 1 ∧
      (cannonMovePath src dst).all
        (fun sq => (getOccupant g sq).all (fun q => !(decide (q.name = Kind.CA)))) = true ∧
      (getOccupant g dst).all
        (fun q => !(decide (q.owner = owner)) && !(decide (q.name = Kind.CA))) = true) ∧
    ((src.1 = dst.1 ∨ src.2 = dst.2 ∨ palaceDiagonalOK src dst = true) →
      cannonJumps g src dst = 1 →
      (cannonMovePath src dst).all
        (fun sq => (getOccupant g sq).all (fun q => !(decide (q.name = Kind.CA)))) = true →
      (getOccupant g dst).all
        (fun q => !(decide (q.owner = owner)) && !(decide (q.name = Kind.CA))) = true →
      cannonIsLegal g owner src dst = true) := by
  constructor
  · intro h
    cases hocc : getOccupant g dst with
    | some q =>
      simp only [cannonIsLegal, hocc] at h
      by_cases h1 : q.owner = owner
      · rw [if_pos h1] at h
        simp at h
      · rw [if_neg h1] at h
        by_cases h2 : q.name = Kind.CA
        · rw [if_pos h2] at h
          simp at h
        · rw [if_neg h2] at h
          obtain ⟨hj, hc, _⟩ := cannonPathOK_parts h
          refine ⟨hj, ?_, ?_⟩
          · rw [cannonInPath_eq, hc]
            rfl
          · simp [Option.all, h1, h2]
    | none =>
      simp only [cannonIsLegal, hocc] at h
      obtain ⟨hj, hc, _⟩ := cannonPathOK_parts h
      refine ⟨hj, ?_, ?_⟩
      · rw [cannonInPath_eq, hc]
        rfl
      · rfl
  · intro hslide hj hall hdest
    have hc : cannonInPath g src dst = false := by
      rw [cannonInPath_eq] at hall
      cases hcp : cannonInPath g src dst
      · rfl
      · rw [hcp] at hall
        simp at hall
    cases hocc : getOccupant g dst with
    | none =>
      simp only [cannonIsLegal, hocc]
      exact cannonPathOK_of hslide hj hc
    | some q =>
      rw [hocc] at hdest
      simp only [Option.all, Bool.and_eq_true, Bool.not_eq_true'] at hdest
      obtain ⟨hd1, hd2⟩ := hdest
      simp only [cannonIsLegal, hocc, if_neg (by simpa using hd1),
        if_neg (by simpa using hd2)]
      exact cannonPathOK_of hslide hj hc

/-- C4 witness: the red Cannon on e3 jumping the single blue Soldier screen
on e5 to capture the blue Chariot on e7 is accepted, and the accepted move
exhibits exactly the claimed conditions. -/
theorem cannon_legality_characterization_witness :
    cannonIsLegal cannonGrid Color.red ((2 : Int), (4 : Int)) ((6 : Int), (4 : Int)) = true ∧
      cannonJumps cannonGrid ((2 : Int), (4 : Int)) ((6 : Int), (4 : Int)) = 1 :=
  ⟨(cannon_legality_characterization cannonGrid Color.red ((2 : Int), (4 : Int))
      ((6 : Int), (4 : Int))).2 (Or.inr (Or.inl (by decide))) (by decide) (by decide)
      (by decide),
   ((cannon_legality_characterization cannonGrid Color.red ((2 : Int), (4 : Int))
      ((6 : Int), (4 : Int))).1 (by decide)).1⟩

/- ## Claim C5: Soldier movement -/

/-- C5 (amended): every diagonal step the Soldier predicate accepts is one
of the eight fixed palace entry diagonals; those diagonals run toward row 1
inside the red palace and toward row 10 inside the blue palace regardless of
the moving Soldier's color (the diagonal branch never consults the owner, so
a Soldier standing in its own palace — unreachable in normal play — is
accepted on a diagonal that is backward for it, see the counterexample);
every vertical step is the owner's forward step, and every horizontal step
is exactly one column. -/
theorem soldier_moves_characterization (g : Grid) (owner : Color) (src dst : Pos)
    (h : soldierIsLegal g owner src dst = true) :
    (src.1 ≠ dst.1 ∧ src.2 ≠ dst.2 → (src, dst) ∈ soldierDiagSteps) ∧
    (src.2 = dst.2 → dst.1 - src.1 = forwardStep owner) ∧
    (src.1 = dst.1 → (dst.2 - src.2).natAbs = 1) ∧
    (∀ sd ∈ soldierDiagSteps,
      sd.2.1 - sd.1.1 = if sd.1.1 ≤ 2 then (-1 : Int) else 1) := by
  unfold soldierIsLegal at h
  by_cases hf : friendlyAt g owner dst = true
  · rw [if_pos hf] at h
    simp at h
  · rw [if_neg hf] at h
    by_cases hA : src.1 = dst.1 ∧ (dst.2 - src.2).natAbs ≠ 1
    · rw [if_pos hA] at h
      simp at h
    · rw [if_neg hA] at h
      by_cases hB : src.2 = dst.2 ∧
          (if owner = Color.blue then dst.1 - src.1 ≠ -1 else dst.1 - src.1 ≠ 1)
      · rw [if_pos hB] at h
        simp at h
      · rw [if_neg hB] at h
        refine ⟨?_, ?_, ?_, by decide⟩
        · intro hC
          rw [if_pos hC] at h
          by_cases h1 : src = ((2 : Int), (3 : Int)) ∨ src = ((2 : Int), (5 : Int))
          · rw [if_pos h1] at h
            have hd : dst = ((1 : Int), (4 : Int)) := by simpa using h
            rcases h1 with rfl | rfl <;> rw [hd] <;> decide
          · rw [if_neg h1] at h
            by_cases h2 : src = ((1 : Int), (4 : Int))
            · rw [if_pos h2] at h
              have hd : dst = ((0 : Int), (3 : Int)) ∨ dst = ((0 : Int), (5 : Int)) := by
                simpa using h
              rw [h2]
              rcases hd with rfl | rfl <;> decide
            · rw [if_neg h2] at h
              by_cases h3 : src = ((7 : Int), (3 : Int)) ∨ src = ((7 : Int), (5 : Int))
              · rw [if_pos h3] at h
                have hd : dst = ((8 : Int), (4 : Int)) := by simpa using h
                rcases h3 with rfl | rfl <;> rw [hd] <;> decide
              · rw [if_neg h3] at h
                by_cases h4 : src = ((8 : Int), (4 : Int))
                · rw [if_pos h4] at h
                  have hd : dst = ((9 : Int), (3 : Int)) ∨ dst = ((9 : Int), (5 : Int)) := by
                    simpa using h
                  rw [h4]
                  rcases hd with rfl | rfl <;> decide
                · rw [if_neg h4] at h
                  simp at h
        · intro hcol
          push_neg at hB
          have hdir := hB hcol
          cases owner with
          | blue =>
            simp at hdir
            show dst.1 - src.1 = -1
            omega
          | red =>
            simp at hdir
            show dst.1 - src.1 = 1
            omega
        · intro hrow
          push_neg at hA
          exact hA hrow

/-- C5 witness: a blue Soldier on d3 entering the red palace diagonally to
e2 — a forward diagonal for blue, and one of the eight palace entry steps. -/
theorem soldier_moves_characterization_witness :
    ((((2 : Int), (3 : Int)) : Pos), (((1 : Int), (4 : Int)) : Pos)) ∈ soldierDiagSteps :=
  (soldier_moves_characterization blueOnD3Grid Color.blue ((2 : Int), (3 : Int))
    ((1 : Int), (4 : Int)) (by decide)).1 (by decide)

/-- C5 counterexample: a RED Soldier placed on d3 is accepted on the
diagonal d3 to e2, which is the backward direction for red (red's forward
vertical step is +1, but this step is -1) — the diagonal branch of
Soldier.is_legal never consults the owning color. -/
theorem soldier_backward_diagonal_accepted :
    soldierIsLegal redOnD3Grid Color.red ((2 : Int), (3 : Int)) ((1 : Int), (4 : Int)) = true ∧
      (1 : Int) - (2 : Int) ≠ forwardStep Color.red := by
  decide

/- ## Claim C7: the domain of decode_location -/

/-- C7 (amended): decode_location succeeds exactly on the strings whose
first character is a column letter a-i and which then carry either exactly
the two characters 1 0 (total length three), or a second character 1-9 with
arbitrary trailing characters — for lengths other than three the code only
ever inspects location[1], so trailing garbage is accepted (see the
counterexample); every other string raises, and decoding touches no state. -/
theorem decode_domain_characterization (l : List Char) :
    (decode l).isSome = decodeAccepts l := by
  match l with
  | [] => rfl
  | [c] =>
    unfold decode decodeAccepts
    cases hc : columnKey c with
    | none => simp [hc]
    | some col => simp [hc]
  | c :: d :: rest =>
    unfold decode decodeAccepts
    simp only [List.get?_cons_zero, List.get?_cons_succ, List.length_cons,
      List.drop_succ_cons, List.drop_zero]
    cases hc : columnKey c with
    | none => simp
    | some col =>
      simp only [Option.isSome_some, Bool.true_and]
      by_cases hlen : rest.length = 1
      · rw [if_pos (by omega : rest.length + 1 + 1 = 3), if_pos hlen]
        unfold rowKeySlice
        by_cases hdr : d :: rest = ['1', '0']
        · rw [if_pos hdr]
          simp only [List.cons.injEq] at hdr
          simp [hdr.1, hdr.2]
        · rw [if_neg hdr]
          simp only [List.cons.injEq] at hdr
          by_cases h1 : d = '1'
          · have h2 : ¬ rest = ['0'] := fun h2 => hdr ⟨h1, h2⟩
            simp [h1, h2]
          · simp [h1]
      · rw [if_neg (by omega : ¬ (rest.length + 1 + 1 = 3)), if_neg hlen]
        cases hr : rowKeyChar d with
        | none => simp
        | some row => simp

/-- C7 counterexample: the malformed string a1xy — four characters, two of
them garbage — decodes successfully to (0, 0) instead of failing, because a
string whose length is not three is only ever read at its first two
characters. -/
theorem decode_accepts_trailing_garbage :
    decode ['a', '1', 'x', 'y'] = some (0, 0) ∧
      ['a', '1', 'x', 'y'] ∉ validTexts := by
  decide

/- ## Claim C8: the codec round trip -/

/-- C8: encode_location is total on the valid internal indices (rows 0-9,
columns 0-8) and decode_location inverts it there; on every one of the 90
well-formed coordinate strings, encoding the decoded pair gives back exactly
the original string. -/
theorem codec_round_trip :
    (∀ (r : Fin 10) (c : Fin 9),
        (encode r.val c.val).isSome = true ∧
          (encode r.val c.val).bind decode = some (r.val, c.val)) ∧
      validTexts.all
        (fun l => decide ((decode l).bind (fun rc => encode rc.1 rc.2) = some l)) = true := by
  decide

end Janggi
